import Mathlib

/-!
Verification development for the Column Reconciliation Engine of the
`automation_fun` repository.

The definitions below are a shallow embedding of the Python sources:

* `src/database_manager.py` — the `confluence_ml_column_map` table and its
  upsert `insert_or_update_confluence_ml_column_map` (a record is addressed by
  the five-part composite key; on update only the columns present in the
  supplied dict are written; on insert, absent columns become SQL NULL, which
  the NOT NULL columns reject).  Dict keys that are not columns of the table
  (the `confluence_page_title` / `confluence_data_type` / … keys of
  `current_mapping_data`) are silently dropped by the upsert, because it only
  iterates over the columns of the table itself; the embedding therefore
  models the update dict as the non-key columns of the table.
* `src/column_mapper.py` — `map_confluence_columns_to_ml_ddl`: the per-column
  decision procedure (override guard, hash gate, fuzzy match), the
  per-page/environment loop, the orphan sweep (which, in the source, sits
  OUTSIDE the environment loop and reads the leaked loop variables
  `ml_env_upper` / `ml_source_fqdn` / `ml_object_type`), and the page-level
  `try/except`.
* `src/config.py` — `load_column_mapper_config` (threshold clamping, strategy
  validation against the four base ratio names).
* `rapidfuzz.process.extractOne` — modelled as the best-scoring candidate at
  or above the cutoff, earliest candidate winning ties; scores are integers
  0–100 (the table column `match_percentage` is INTEGER).

The external collaborators (`extract_columns_from_ddl`, the FQDN resolver
data, the SQLite connection, timestamps) appear as inputs: extracted column
names are upper-case strings (`ddl_utils.py` line 193 upper-cases them), the
resolver is a lookup function, and the Mapping Store is a list of
key/record pairs.
-/

/-- The five-part composite primary key of `confluence_ml_column_map`
(`database_manager.py`, `create_tables`). -/
structure MapKey where
  confluence_page_id : Nat
  confluence_target_field_name : String
  ml_source_fqdn : String
  ml_env : String
  ml_object_type : String
deriving DecidableEq

/-- The non-key columns of one `confluence_ml_column_map` row.  Nullable
columns are `Option`; `mapping_status`, `last_mapped_on`, `user_override`
and `is_active` are NOT NULL in the schema.  `user_override` / `is_active`
are the SQLite 0/1 integers, modelled as `Bool`. -/
structure MapRecord where
  matched_ml_column_name : Option String
  match_percentage : Option Nat
  match_strategy : Option String
  mapping_status : String
  ml_source_ddl_hash_at_mapping : Option String
  last_mapped_on : String
  notes : Option String
  user_override : Bool
  is_active : Bool
deriving DecidableEq

/-- A dict argument of `insert_or_update_confluence_ml_column_map`, restricted
to the non-key columns of the table: `some v` means the key is present in the dict
with value `v`, `none` means the key is absent (so an UPDATE leaves the stored
value alone and an INSERT writes NULL).  In every call site of
`column_mapper.py` a present key carries a non-NULL value. -/
structure MapUpdate where
  matched_ml_column_name : Option String := none
  match_percentage : Option Nat := none
  match_strategy : Option String := none
  mapping_status : Option String := none
  ml_source_ddl_hash_at_mapping : Option String := none
  last_mapped_on : Option String := none
  notes : Option String := none
  user_override : Option Bool := none
  is_active : Option Bool := none
deriving DecidableEq

/-- The UPDATE branch of the upsert: `for col in non_pk_columns: if col in
column_map_dict: SET col = dict[col]` — a stored value is replaced exactly
when the dict supplies that column. -/
def applyUpdate (r : MapRecord) (u : MapUpdate) : MapRecord where
  matched_ml_column_name :=
    match u.matched_ml_column_name with
    | some v => some v
    | none => r.matched_ml_column_name
  match_percentage :=
    match u.match_percentage with
    | some v => some v
    | none => r.match_percentage
  match_strategy :=
    match u.match_strategy with
    | some v => some v
    | none => r.match_strategy
  mapping_status := u.mapping_status.getD r.mapping_status
  ml_source_ddl_hash_at_mapping :=
    match u.ml_source_ddl_hash_at_mapping with
    | some v => some v
    | none => r.ml_source_ddl_hash_at_mapping
  last_mapped_on := u.last_mapped_on.getD r.last_mapped_on
  notes :=
    match u.notes with
    | some v => some v
    | none => r.notes
  user_override := u.user_override.getD r.user_override
  is_active := u.is_active.getD r.is_active

/-- The INSERT branch of the upsert: every table column is inserted,
`column_map_dict.get(col, None)` supplying NULL for absent keys.  The NOT
NULL columns of the schema reject an explicit NULL (the column defaults do
not apply to explicit NULLs), raising `sqlite3.IntegrityError`, modelled as
`none`. -/
def insertRow (u : MapUpdate) : Option MapRecord :=
  match u.mapping_status, u.last_mapped_on, u.user_override, u.is_active with
  | some st, some ts, some ov, some act =>
      some { matched_ml_column_name := u.matched_ml_column_name
             match_percentage := u.match_percentage
             match_strategy := u.match_strategy
             mapping_status := st
             ml_source_ddl_hash_at_mapping := u.ml_source_ddl_hash_at_mapping
             last_mapped_on := ts
             notes := u.notes
             user_override := ov
             is_active := act }
  | _, _, _, _ => none

/-- The Mapping Store: the rows of `confluence_ml_column_map`. -/
abbrev Store := List (MapKey × MapRecord)

/-- The lookup `SELECT * FROM confluence_ml_column_map WHERE <key> ; fetchone()`. -/
def storeLookup : Store → MapKey → Option MapRecord
  | [], _ => none
  | p :: rest, k => if p.1 = k then some p.2 else storeLookup rest k

/-- Number of rows with the given composite key (invariant I1 says this is
at most 1). -/
def countKey : Store → MapKey → Nat
  | [], _ => 0
  | p :: rest, k => (if p.1 = k then 1 else 0) + countKey rest k

/-- The statement `UPDATE confluence_ml_column_map SET <supplied columns> WHERE <key>`:
every row matching the key is rewritten through `applyUpdate`. -/
def updateStore : Store → MapKey → MapUpdate → Store
  | [], _, _ => []
  | p :: rest, k, u =>
      (if p.1 = k then (p.1, applyUpdate p.2 u) else p) :: updateStore rest k u

/-- The upsert `DatabaseManager.insert_or_update_confluence_ml_column_map`: select the
row by composite key; if it exists, UPDATE the supplied columns in place,
otherwise INSERT a fresh row.  `none` models a raised exception
(IntegrityError on inserting NULL into a NOT NULL column). -/
def insert_or_update_confluence_ml_column_map (store : Store) (k : MapKey)
    (u : MapUpdate) : Option Store :=
  match storeLookup store k with
  | some _ => some (updateStore store k u)
  | none => (insertRow u).map (fun r => store ++ [(k, r)])

/-! ### Store lemmas -/

theorem storeLookup_updateStore_self (store : Store) (k : MapKey) (u : MapUpdate) :
    storeLookup (updateStore store k u) k =
      (storeLookup store k).map (fun r => applyUpdate r u) := by
  induction store with
  | nil => rfl
  | cons p rest ih =>
      by_cases h : p.1 = k
      · simp [updateStore, storeLookup, h]
      · simpa [updateStore, storeLookup, h] using ih

theorem storeLookup_updateStore_other (store : Store) (k k' : MapKey) (u : MapUpdate)
    (hne : k' ≠ k) :
    storeLookup (updateStore store k u) k' = storeLookup store k' := by
  induction store with
  | nil => rfl
  | cons p rest ih =>
      by_cases h : p.1 = k
      · have hpk : p.1 ≠ k' := fun hh => hne (hh.symm.trans h)
        simp [updateStore, storeLookup, h, hpk, ih, hne, Ne.symm hne]
      · by_cases h' : p.1 = k'
        · simp [updateStore, storeLookup, h, h', hne, Ne.symm hne]
        · simp [updateStore, storeLookup, h, h', ih]

theorem countKey_updateStore (store : Store) (k k' : MapKey) (u : MapUpdate) :
    countKey (updateStore store k u) k' = countKey store k' := by
  induction store with
  | nil => rfl
  | cons p rest ih =>
      by_cases h : p.1 = k
      · simp [updateStore, countKey, h, ih]
      · simp [updateStore, countKey, h, ih]

theorem storeLookup_append_single_self (store : Store) (k : MapKey) (r : MapRecord)
    (h : storeLookup store k = none) :
    storeLookup (store ++ [(k, r)]) k = some r := by
  induction store with
  | nil => simp [storeLookup]
  | cons p rest ih =>
      by_cases hp : p.1 = k
      · simp [storeLookup, hp] at h
      · simp only [storeLookup, hp] at h
        simpa [storeLookup, hp] using ih h

theorem storeLookup_append_single_other (store : Store) (k k' : MapKey) (r : MapRecord)
    (hne : k' ≠ k) :
    storeLookup (store ++ [(k, r)]) k' = storeLookup store k' := by
  induction store with
  | nil =>
      have : k ≠ k' := fun h => hne h.symm
      simp [storeLookup, this]
  | cons p rest ih =>
      by_cases hp : p.1 = k'
      · simp [storeLookup, hp]
      · simp [storeLookup, hp, ih]

theorem countKey_append_single (store : Store) (k k' : MapKey) (r : MapRecord) :
    countKey (store ++ [(k, r)]) k' =
      countKey store k' + (if k = k' then 1 else 0) := by
  induction store with
  | nil => simp [countKey]
  | cons p rest ih =>
      simp only [List.cons_append, List.append_eq, countKey, ih]
      omega

theorem countKey_eq_zero_of_lookup_none (store : Store) (k : MapKey)
    (h : storeLookup store k = none) : countKey store k = 0 := by
  induction store with
  | nil => rfl
  | cons p rest ih =>
      by_cases hp : p.1 = k
      · simp [storeLookup, hp] at h
      · simp only [storeLookup, hp] at h
        simp [countKey, hp, ih h]

/-! ### rapidfuzz `process.extractOne`

`process.extractOne(query, choices, scorer=..., score_cutoff=...)` returns
the best-scoring choice whose score is at or above the cutoff (matches with
a score strictly below the cutoff are not returned), or nothing when no
choice reaches the cutoff; among equal top scores the earliest choice in
list order is kept.  Scores are integers 0–100 here (`match_percentage` is
an INTEGER column). -/

def extractOneAux (scorer : String → String → Nat) (query : String)
    (score_cutoff : Nat) : List String → Option (String × Nat) → Option (String × Nat)
  | [], best => best
  | choice :: rest, best =>
      let s := scorer query choice
      let best' :=
        if s < score_cutoff then best
        else
          match best with
          | none => some (choice, s)
          | some (bc, bs) => if bs < s then some (choice, s) else some (bc, bs)
      extractOneAux scorer query score_cutoff rest best'

def extractOne (scorer : String → String → Nat) (query : String)
    (choices : List String) (score_cutoff : Nat) : Option (String × Nat) :=
  extractOneAux scorer query score_cutoff choices none

theorem extractOneAux_all_lt (scorer : String → String → Nat) (query : String)
    (score_cutoff : Nat) (l : List String) (best : Option (String × Nat))
    (h : ∀ c ∈ l, scorer query c < score_cutoff) :
    extractOneAux scorer query score_cutoff l best = best := by
  induction l generalizing best with
  | nil => rfl
  | cons choice rest ih =>
      have hc : scorer query choice < score_cutoff := h choice (by simp)
      simp only [extractOneAux, if_pos hc]
      exact ih best (fun c hcmem => h c (by simp [hcmem]))

theorem extractOneAux_mono (scorer : String → String → Nat) (query : String)
    (score_cutoff : Nat) (l : List String) (p : String × Nat) :
    ∃ p', extractOneAux scorer query score_cutoff l (some p) = some p' ∧ p.2 ≤ p'.2 := by
  induction l generalizing p with
  | nil => exact ⟨p, rfl, le_refl _⟩
  | cons choice rest ih =>
      by_cases hlt : scorer query choice < score_cutoff
      · simpa [extractOneAux, hlt] using ih p
      · by_cases hbs : p.2 < scorer query choice
        · obtain ⟨p', hp', hle⟩ := ih (choice, scorer query choice)
          exact ⟨p', by simpa [extractOneAux, hlt, hbs] using hp', le_trans (le_of_lt hbs) hle⟩
        · obtain ⟨p', hp', hle⟩ := ih p
          exact ⟨p', by simpa [extractOneAux, hlt, hbs] using hp', hle⟩

theorem extractOneAux_isSome_of_mem (scorer : String → String → Nat) (query : String)
    (score_cutoff : Nat) (l : List String) (c : String) (hc : c ∈ l)
    (hs : score_cutoff ≤ scorer query c) (best : Option (String × Nat)) :
    (extractOneAux scorer query score_cutoff l best).isSome := by
  induction l generalizing best with
  | nil => cases hc
  | cons choice rest ih =>
      rcases List.mem_cons.mp hc with hceq | hcmem
      · subst hceq
        have hnlt : ¬ scorer query c < score_cutoff := not_lt.mpr hs
        cases best with
        | none =>
            obtain ⟨p', hp', _⟩ :=
              extractOneAux_mono scorer query score_cutoff rest (c, scorer query c)
            simp [extractOneAux, hnlt, hp']
        | some b =>
            by_cases hbs : b.2 < scorer query c
            · obtain ⟨p', hp', _⟩ :=
                extractOneAux_mono scorer query score_cutoff rest (c, scorer query c)
              simp [extractOneAux, hnlt, hbs, hp']
            · obtain ⟨p', hp', _⟩ :=
                extractOneAux_mono scorer query score_cutoff rest (b.1, b.2)
              simp [extractOneAux, hnlt, hbs, hp']
      · simp only [extractOneAux]
        exact ih hcmem _

theorem extractOneAux_ge_of_mem (scorer : String → String → Nat) (query : String)
    (score_cutoff : Nat) (l : List String) (c : String) (hc : c ∈ l)
    (hs : score_cutoff ≤ scorer query c) (best : Option (String × Nat))
    (p' : String × Nat)
    (hres : extractOneAux scorer query score_cutoff l best = some p') :
    scorer query c ≤ p'.2 := by
  induction l generalizing best with
  | nil => cases hc
  | cons choice rest ih =>
      rcases List.mem_cons.mp hc with hceq | hcmem
      · subst hceq
        have hnlt : ¬ scorer query c < score_cutoff := not_lt.mpr hs
        cases best with
        | none =>
            simp only [extractOneAux, if_neg hnlt] at hres
            obtain ⟨q, hq, hle⟩ :=
              extractOneAux_mono scorer query score_cutoff rest (c, scorer query c)
            rw [hq] at hres
            obtain rfl := Option.some.inj hres
            exact hle
        | some b =>
            obtain ⟨bc, bs⟩ := b
            simp only [extractOneAux, if_neg hnlt] at hres
            by_cases hbs : bs < scorer query c
            · rw [if_pos hbs] at hres
              obtain ⟨q, hq, hle⟩ :=
                extractOneAux_mono scorer query score_cutoff rest (c, scorer query c)
              rw [hq] at hres
              obtain rfl := Option.some.inj hres
              exact hle
            · rw [if_neg hbs] at hres
              obtain ⟨q, hq, hle⟩ :=
                extractOneAux_mono scorer query score_cutoff rest (bc, bs)
              rw [hq] at hres
              obtain rfl := Option.some.inj hres
              exact le_trans (not_lt.mp hbs) hle
      · simp only [extractOneAux] at hres
        exact ih hcmem _ hres

theorem extractOneAux_sound (scorer : String → String → Nat) (query : String)
    (score_cutoff : Nat) (l : List String) (best : Option (String × Nat))
    (p' : String × Nat)
    (hres : extractOneAux scorer query score_cutoff l best = some p') :
    best = some p' ∨
      (p'.1 ∈ l ∧ scorer query p'.1 = p'.2 ∧ score_cutoff ≤ p'.2) := by
  induction l generalizing best with
  | nil => exact Or.inl hres
  | cons choice rest ih =>
      simp only [extractOneAux] at hres
      by_cases hlt : scorer query choice < score_cutoff
      · rw [if_pos hlt] at hres
        rcases ih best hres with h | ⟨hm, hsc, hcut⟩
        · exact Or.inl h
        · exact Or.inr ⟨List.mem_cons_of_mem _ hm, hsc, hcut⟩
      · rw [if_neg hlt] at hres
        have hcut0 : score_cutoff ≤ scorer query choice := not_lt.mp hlt
        cases best with
        | none =>
            rcases ih _ hres with h | ⟨hm, hsc, hcut⟩
            · cases h
              exact Or.inr ⟨by simp, rfl, hcut0⟩
            · exact Or.inr ⟨List.mem_cons_of_mem _ hm, hsc, hcut⟩
        | some b =>
            obtain ⟨bc, bs⟩ := b
            dsimp only at hres
            by_cases hbs : bs < scorer query choice
            · rw [if_pos hbs] at hres
              rcases ih _ hres with h | ⟨hm, hsc, hcut⟩
              · cases h
                exact Or.inr ⟨by simp, rfl, hcut0⟩
              · exact Or.inr ⟨List.mem_cons_of_mem _ hm, hsc, hcut⟩
            · rw [if_neg hbs] at hres
              rcases ih _ hres with h | ⟨hm, hsc, hcut⟩
              · exact Or.inl (by simpa using h)
              · exact Or.inr ⟨List.mem_cons_of_mem _ hm, hsc, hcut⟩

theorem extractOne_none_of_all_lt (scorer : String → String → Nat) (query : String)
    (choices : List String) (score_cutoff : Nat)
    (h : ∀ c ∈ choices, scorer query c < score_cutoff) :
    extractOne scorer query choices score_cutoff = none :=
  extractOneAux_all_lt scorer query score_cutoff choices none h

theorem extractOne_isSome_of_mem (scorer : String → String → Nat) (query : String)
    (choices : List String) (score_cutoff : Nat) (c : String) (hc : c ∈ choices)
    (hs : score_cutoff ≤ scorer query c) :
    (extractOne scorer query choices score_cutoff).isSome :=
  extractOneAux_isSome_of_mem scorer query score_cutoff choices c hc hs none

theorem extractOne_sound (scorer : String → String → Nat) (query : String)
    (choices : List String) (score_cutoff : Nat) (p : String × Nat)
    (hres : extractOne scorer query choices score_cutoff = some p) :
    p.1 ∈ choices ∧ scorer query p.1 = p.2 ∧ score_cutoff ≤ p.2 := by
  rcases extractOneAux_sound scorer query score_cutoff choices none p hres with h | h
  · cases h
  · exact h

theorem extractOne_is_max (scorer : String → String → Nat) (query : String)
    (choices : List String) (score_cutoff : Nat) (c : String) (hc : c ∈ choices)
    (hs : score_cutoff ≤ scorer query c) (p : String × Nat)
    (hres : extractOne scorer query choices score_cutoff = some p) :
    scorer query c ≤ p.2 :=
  extractOneAux_ge_of_mem scorer query score_cutoff choices c hc hs none p hres

/-! ### Configuration (`config.py` `load_column_mapper_config`) and the
strategy dispatch of `column_mapper.py` lines 47–67 -/

/-- Python `str.upper()` (character-wise upper-casing; same as
`String.toUpper`, stated on the character list so the kernel can
evaluate it). -/
def pyUpper (s : String) : String := ⟨s.data.map Char.toUpper⟩

/-- Python `str.lower()`. -/
def pyLower (s : String) : String := ⟨s.data.map Char.toLower⟩

/-- Python `str.strip()`: remove leading and trailing whitespace. -/
def pyStrip (s : String) : String :=
  ⟨((s.data.dropWhile Char.isWhitespace).reverse.dropWhile Char.isWhitespace).reverse⟩

/-- The raw JSON dict of `column_mapper_config.json` as far as
`load_column_mapper_config` inspects it: `none` models a missing key (or a
value of the wrong type, which fails the same `isinstance` checks).
Numeric thresholds are modelled as integers. -/
structure RawMapperConfig where
  match_threshold : Option Int
  match_strategy : Option String
  exact_match_only : Bool := false
deriving DecidableEq

/-- The strategy names `load_column_mapper_config` accepts (config.py
line 250).  Note WRATIO and QRATIO are absent. -/
def valid_strategy_names : List String :=
  ["RATIO", "PARTIAL_RATIO", "TOKEN_SORT_RATIO", "TOKEN_SET_RATIO"]

/-- The validated configuration returned by `load_column_mapper_config`:
threshold clamped by `max(0, min(100, t))`, strategy kept as supplied. -/
structure MapperConfigLoaded where
  match_threshold : Int
  match_strategy : String
  exact_match_only : Bool
deriving DecidableEq

/-- The loader `config.load_column_mapper_config` (lines 246–256): require a numeric
`match_threshold` and a string `match_strategy` whose upper-casing is one of
the four base ratio names, then clamp the threshold into 0–100.  `.error`
models the raised `ValueError`. -/
def load_column_mapper_config (raw : RawMapperConfig) :
    Except String MapperConfigLoaded :=
  match raw.match_threshold with
  | none => .error "Column mapper config must contain match_threshold (int/float)."
  | some t =>
      match raw.match_strategy with
      | none => .error "Column mapper config must contain match_strategy (str)."
      | some s =>
          if pyUpper s ∈ valid_strategy_names then
            .ok { match_threshold := max 0 (min 100 t)
                  match_strategy := s
                  exact_match_only := raw.exact_match_only }
          else .error ("Invalid match_strategy: " ++ s ++ ".")

/-- The rapidfuzz scorer functions that `map_confluence_columns_to_ml_ddl`
can dispatch to (fuzz.ratio … fuzz.QRatio). -/
inductive StrategyTag
  | ratio
  | partRatio
  | tokenSortRatio
  | tokenSetRatio
  | wratio
  | qratio
deriving DecidableEq

/-- The string-to-scorer dispatch of `column_mapper.py` lines 52–67; the
argument is `match_strategy_str` (already upper-cased on line 47).  `none`
models the `else` branch: print an error, disconnect, `return`. -/
def dispatch_match_strategy (match_strategy_str : String) : Option StrategyTag :=
  if match_strategy_str = "RATIO" then some .ratio
  else if match_strategy_str = "PARTIAL_RATIO" then some .partRatio
  else if match_strategy_str = "TOKEN_SORT_RATIO" then some .tokenSortRatio
  else if match_strategy_str = "TOKEN_SET_RATIO" then some .tokenSetRatio
  else if match_strategy_str = "WRATIO" then some .wratio
  else if match_strategy_str = "QRATIO" then some .qratio
  else none

/-! ### The per-column decision procedure
(`column_mapper.py` lines 186–278) -/

/-- The matcher configuration as used inside the mapping loop.  The scorer
function itself is the external rapidfuzz scorer selected by the dispatch;
rapidfuzz guarantees integer-rounded scores in 0–100. -/
structure MatchConfig where
  match_threshold : Nat
  match_strategy_str : String
  scorer : String → String → Nat
  exact_match_only : Bool

/-- The dict `current_mapping_data` (lines 205–223), restricted to the columns of
`confluence_ml_column_map` — the `confluence_*` descriptive keys of the dict
are not columns of the table and are dropped by the upsert.  Note it always
carries `is_active = 1`, `user_override = 0` and an empty `notes`. -/
def current_mapping_data (nowTs current_ddl_hash : String) : MapUpdate :=
  { last_mapped_on := some nowTs
    ml_source_ddl_hash_at_mapping := some current_ddl_hash
    is_active := some true
    user_override := some false
    notes := some "" }

/-- Which of the three branches of the decision procedure fired. -/
inductive DecisionPath
  | override
  | hashGate
  | fuzzy
deriving DecidableEq

/-- The outcome of the decision procedure for one documented column: the
branch taken and the dict passed to the upsert. -/
structure ColumnDecision where
  path : DecisionPath
  update : MapUpdate
deriving DecidableEq

/-- The fuzzy-match step (lines 242–278): run `extractOne` on the upper-cased
`source_field_name` against the upper-cased physical column names with the
threshold as cutoff, then classify.  The note strings follow the source
f-strings (quote characters omitted). -/
def fuzzyStep (cfg : MatchConfig) (base : MapUpdate)
    (confluence_source_field_name : String)
    (ml_actual_column_names_upper : List String) : ColumnDecision :=
  match extractOne cfg.scorer (pyUpper confluence_source_field_name)
      ml_actual_column_names_upper cfg.match_threshold with
  | some (matched_ml_col_name, score) =>
      let d : MapUpdate :=
        { base with
          matched_ml_column_name := some matched_ml_col_name
          match_percentage := some score
          match_strategy := some cfg.match_strategy_str }
      if cfg.exact_match_only ∧ score < 100 then
        ⟨.fuzzy,
          { d with
            mapping_status := some "UNMAPPED_NOT_EXACT"
            notes := some ("Fuzzy match (" ++ toString score ++
              "%) below 100% exact_match_only threshold.") }⟩
      else if score = 100 then
        ⟨.fuzzy,
          { d with
            mapping_status := some "MAPPED_EXACT"
            notes := some ("Exact match found for " ++ confluence_source_field_name ++
              " to " ++ matched_ml_col_name ++ ".") }⟩
      else
        ⟨.fuzzy,
          { d with
            mapping_status := some "MAPPED_FUZZY"
            notes := some ("Fuzzy match (" ++ toString score ++ "%) for " ++
              confluence_source_field_name ++ " to " ++ matched_ml_col_name ++ ".") }⟩
  | none =>
      ⟨.fuzzy,
        { base with
          mapping_status := some "UNMAPPED_LOW_SCORE"
          notes := some ("No match found above threshold (" ++
            toString cfg.match_threshold ++ "%).") }⟩

/-- The decision procedure for one documented column in one environment
(lines 200–278): fetch the existing record; if `user_override` is set, pass
`current_mapping_data` to the upsert and stop; else if the stored DDL hash
equals the current hash and the stored status is MAPPED_EXACT or
MAPPED_FUZZY, pass `current_mapping_data` to the upsert and skip
re-matching; otherwise run the fuzzy step. -/
def decideColumn (cfg : MatchConfig) (existing : Option MapRecord)
    (current_ddl_hash nowTs confluence_source_field_name : String)
    (ml_actual_column_names_upper : List String) : ColumnDecision :=
  let base := current_mapping_data nowTs current_ddl_hash
  match existing with
  | some ex =>
      if ex.user_override then ⟨.override, base⟩
      else if ex.ml_source_ddl_hash_at_mapping = some current_ddl_hash ∧
          (ex.mapping_status = "MAPPED_EXACT" ∨ ex.mapping_status = "MAPPED_FUZZY") then
        ⟨.hashGate, base⟩
      else fuzzyStep cfg base confluence_source_field_name ml_actual_column_names_upper
  | none => fuzzyStep cfg base confluence_source_field_name ml_actual_column_names_upper

/-- The helper `_interpret_confluence_boolean_string`: true only for a string that
strips and lower-cases to exactly "yes". -/
def interpret_confluence_boolean_string (value : Option String) : Bool :=
  match value with
  | some s => pyLower (pyStrip s) = "yes"
  | none => false

/-! ### The run model (`map_confluence_columns_to_ml_ddl`)

The loop structure of `column_mapper.py` lines 115–324:

* for each approved page (inside a `try` covering the whole page):
  * collect `table_1` columns: ALL of them feed the documented-name set for
    orphan detection; only those whose `add_source_to_target` interprets as
    yes are mapped;
  * resolve the first `source_table`; skip the page (`continue`, no
    exception) when absent or unresolved;
  * for each environment in `CHECK_ENVIRONMENTS`: resolve the FQDN, fetch
    the cached DDL, skip the environment when either is missing/empty, and
    run the decision procedure + upsert for each column to map;
  * AFTER the environment loop (the sweep is indented at the level of the
    `for`, not inside it) run the orphan sweep once, reading the
    function-scoped variables `ml_env_upper` (the loop variable — after a
    completed loop, the last entry of `CHECK_ENVIRONMENTS`), `ml_source_fqdn`
    and `ml_object_type` (last assigned by any environment of any page that
    had resolver details; `NameError` if never assigned);
  * `except`: record the error for the page, keep already-committed writes,
    continue with the next page. -/

def CHECK_ENVIRONMENTS : List String := ["DEV", "SPC", "BFM", "PRU"]

/-- One resolved environment entry of the FQDN resolver map. -/
structure EnvFqdn where
  fqdn : String
  object_type : String
deriving DecidableEq

/-- One entry of the `ml_ddl_cache` (from `snowflake_ml_source_metadata`):
the DDL text, its hash, and the column names that
`extract_columns_from_ddl` (external collaborator) extracts from the text —
upper-cased, as `ddl_utils.py` line 193 canonicalizes them. -/
structure DdlInfo where
  current_ddl_hash : String
  current_extracted_ddl : String
  extracted_column_names : List String
deriving DecidableEq

/-- One `table_1` column of the parsed content of a page, with the fields
the mapper reads.  `source_field_name` defaults to the empty string, as in
the `.get` call of line 188. -/
structure ConfColumn where
  target_field_name : String
  source_field_name : String := ""
  add_source_to_target : Option String := none
  source_table : Option String := none
deriving DecidableEq

/-- One approved page (PARSED_OK, user-verified) with its parsed columns. -/
structure PageInput where
  page_id : Nat
  columns : List ConfColumn
deriving DecidableEq

/-- The external collaborators of the run: the FQDN resolver map, the ML DDL
cache, an injected per-key Mapping Store write fault (for the failure
claims), and the wall clock. -/
structure RunEnv where
  fqdn_resolver : String → Option (String → Option EnvFqdn)
  ml_ddl_cache : String → String → String → Option DdlInfo
  failing_write : MapKey → Bool
  nowTs : String

/-- The function-scoped mutable state of `map_confluence_columns_to_ml_ddl`:
the Mapping Store, the leaked loop variables, the per-page errors appended
to the report by the `except` clause, and the INFO lines the orphan sweep
emits for override-masked orphans. -/
structure RunState where
  store : Store
  ml_env_upper : Option String
  ml_scope : Option EnvFqdn
  page_errors : List Nat
  override_masked_infos : List (Nat × String)
deriving DecidableEq

/-- Collapse an exceptional and a normal outcome to the state reached; the
Mapping Store commits each upsert, so writes performed before an exception
persist. -/
def exceptState (e : Except RunState RunState) : RunState :=
  match e with
  | .ok s => s
  | .error s => s

/-- A Mapping Store write: the injected fault or an IntegrityError raises
(`.error`, keeping the state); otherwise the upsert result is committed. -/
def tryWrite (re : RunEnv) (st : RunState) (k : MapKey) (u : MapUpdate) :
    Except RunState RunState :=
  if re.failing_write k then .error st
  else
    match insert_or_update_confluence_ml_column_map st.store k u with
    | some s => .ok { st with store := s }
    | none => .error st

/-- Process one documented column (marked for inclusion) for one
environment: decision procedure + upsert. -/
def processMapColumn (cfg : MatchConfig) (re : RunEnv) (page_id : Nat)
    (env : String) (fq : EnvFqdn) (ddl : DdlInfo)
    (st : RunState) (col : ConfColumn) : Except RunState RunState :=
  let key : MapKey :=
    ⟨page_id, col.target_field_name, fq.fqdn, env, fq.object_type⟩
  let existing := storeLookup st.store key
  let d := decideColumn cfg existing ddl.current_ddl_hash re.nowTs
    col.source_field_name ddl.extracted_column_names
  tryWrite re st key d.update

/-- The inner `for conf_col_detail in confluence_columns_to_map` loop; an
exception from one column propagates past the remaining columns. -/
def mapColumnsFold (cfg : MatchConfig) (re : RunEnv) (page_id : Nat)
    (env : String) (fq : EnvFqdn) (ddl : DdlInfo)
    (a : Except RunState RunState) (cols : List ConfColumn) :
    Except RunState RunState :=
  cols.foldl (fun acc col =>
    match acc with
    | .error s => .error s
    | .ok s => processMapColumn cfg re page_id env fq ddl s col) a

/-- One iteration of `for ml_env_upper in CHECK_ENVIRONMENTS` (lines
161–278).  The loop variable is recorded in the state unconditionally;
`ml_scope` is assigned when the resolver has details for the environment,
even if the environment is then skipped for lacking DDL. -/
def processEnv (cfg : MatchConfig) (re : RunEnv) (page_id : Nat)
    (cols_to_map : List ConfColumn) (resolved : String → Option EnvFqdn)
    (acc : Except RunState RunState) (env : String) : Except RunState RunState :=
  match acc with
  | .error s => .error s
  | .ok st =>
      let st := { st with ml_env_upper := some env }
      match resolved env with
      | none => .ok st
      | some fq =>
          let st := { st with ml_scope := some fq }
          match re.ml_ddl_cache fq.fqdn env fq.object_type with
          | none => .ok st
          | some ddl =>
              if ddl.current_extracted_ddl = "" then .ok st
              else if ddl.current_ddl_hash = "" then .ok st
              else if ddl.extracted_column_names = [] then .ok st
              else mapColumnsFold cfg re page_id env fq ddl (.ok st) cols_to_map

/-- The sweep key for one previously-recorded row: scope variables plus the
target name of the row (lines 298–320 build the dict from exactly these). -/
def mkOrphanKey (page_id : Nat) (fqdn env obj : String) (target : String) : MapKey :=
  ⟨page_id, target, fqdn, env, obj⟩

/-- The snapshot the sweep iterates over: `SELECT … WHERE confluence_page_id
= ? AND ml_source_fqdn = ? AND ml_env = ? AND ml_object_type = ? AND
is_active = 1; fetchall()` — fetched before any sweep write. -/
def orphanSweepSnapshot (store : Store) (page_id : Nat) (fqdn env obj : String) :
    List (MapKey × MapRecord) :=
  store.filter (fun p =>
    p.1.confluence_page_id = page_id ∧ p.1.ml_source_fqdn = fqdn ∧
      p.1.ml_env = env ∧ p.1.ml_object_type = obj ∧ p.2.is_active = true)

/-- The per-row body of the orphan sweep (lines 289–320): a row whose target
is still in the documented set is left alone; an absent target with
`user_override` set gets an INFO line and an audit-only upsert
(`last_mapped_on`, `is_active = 1`); an absent target without override is
deactivated. -/
def orphanRowAction (re : RunEnv) (page_id : Nat) (fqdn env obj : String)
    (current_target_names : List String)
    (a : Except RunState RunState) (row : MapKey × MapRecord) :
    Except RunState RunState :=
  match a with
  | .error s => .error s
  | .ok st =>
      if row.1.confluence_target_field_name ∈ current_target_names then .ok st
      else if row.2.user_override then
        let st :=
          { st with override_masked_infos := st.override_masked_infos ++
              [(page_id, row.1.confluence_target_field_name)] }
        tryWrite re st
          (mkOrphanKey page_id fqdn env obj row.1.confluence_target_field_name)
          { last_mapped_on := some re.nowTs, is_active := some true }
      else
        tryWrite re st
          (mkOrphanKey page_id fqdn env obj row.1.confluence_target_field_name)
          { last_mapped_on := some re.nowTs
            is_active := some false
            user_override := some false
            mapping_status := some "INACTIVE_ORPHANED"
            notes := some "Automatically marked as inactive: column removed from Confluence page." }

/-- The orphan sweep over one scope. -/
def orphanSweep (re : RunEnv) (page_id : Nat) (fqdn env obj : String)
    (current_target_names : List String) (st : RunState) :
    Except RunState RunState :=
  (orphanSweepSnapshot st.store page_id fqdn env obj).foldl
    (orphanRowAction re page_id fqdn env obj current_target_names) (.ok st)

/-- All target names of the `table_1` columns of the page — gathered for every
column (line 138), before and regardless of the `add_source_to_target`
check. -/
def pageTargetNames (pg : PageInput) : List String :=
  pg.columns.map (fun c => c.target_field_name)

/-- The columns actually mapped: those whose `add_source_to_target`
interprets as yes (lines 141–142). -/
def pageColumnsToMap (pg : PageInput) : List ConfColumn :=
  pg.columns.filter (fun c => interpret_confluence_boolean_string c.add_source_to_target)

/-- The first truthy `source_table` among the `table_1` columns of the page
(line 148). -/
def firstSourceTable (pg : PageInput) : Option String :=
  pg.columns.findSome? (fun c =>
    match c.source_table with
    | some s => if s = "" then none else some s
    | none => none)

/-- The body of the per-page `try` block: resolution, the environment loop,
then — after the loop — the single orphan sweep on the leaked loop
variables.  `.error` is an exception escaping to the `except` clause. -/
def processPageBody (cfg : MatchConfig) (re : RunEnv) (st : RunState)
    (pg : PageInput) : Except RunState RunState :=
  match firstSourceTable pg with
  | none => .ok st
  | some src_table =>
      match re.fqdn_resolver (pyUpper src_table) with
      | none => .ok st
      | some resolved =>
          match CHECK_ENVIRONMENTS.foldl
              (processEnv cfg re pg.page_id (pageColumnsToMap pg) resolved)
              (.ok st) with
          | .error s => .error s
          | .ok st2 =>
              match st2.ml_env_upper, st2.ml_scope with
              | some env, some fq =>
                  orphanSweep re pg.page_id fq.fqdn env fq.object_type
                    (pageTargetNames pg) st2
              | _, _ => .error st2

/-- One page with its `except` clause: an exception is recorded in the
report and the run continues. -/
def processPage (cfg : MatchConfig) (re : RunEnv) (st : RunState)
    (pg : PageInput) : RunState :=
  match processPageBody cfg re st pg with
  | .ok s => s
  | .error s => { s with page_errors := s.page_errors ++ [pg.page_id] }

/-- The inputs of the run: the raw configuration file and the approved pages
with their stored mapping state. -/
structure RunInput where
  raw_config : RawMapperConfig
  pages : List PageInput
  initial_store : Store

def initialRunState (store : Store) : RunState :=
  { store := store, ml_env_upper := none, ml_scope := none,
    page_errors := [], override_masked_infos := [] }

/-- The entry point `map_confluence_columns_to_ml_ddl`: load and validate the configuration
(a failure returns before any page is touched), dispatch the strategy
string to a scorer (an unknown name also returns), then process every page.
`scorer_of` supplies the external rapidfuzz scorer for each strategy. -/
def map_confluence_columns_to_ml_ddl (re : RunEnv)
    (scorer_of : StrategyTag → String → String → Nat) (inp : RunInput) : RunState :=
  match load_column_mapper_config inp.raw_config with
  | .error _ => initialRunState inp.initial_store
  | .ok cfgL =>
      let match_strategy_str := pyUpper cfgL.match_strategy
      match dispatch_match_strategy match_strategy_str with
      | none => initialRunState inp.initial_store
      | some tag =>
          let cfg : MatchConfig :=
            { match_threshold := cfgL.match_threshold.toNat
              match_strategy_str := match_strategy_str
              scorer := scorer_of tag
              exact_match_only := cfgL.exact_match_only }
          inp.pages.foldl (processPage cfg re) (initialRunState inp.initial_store)

/-! ### Concrete scenario material shared by several claims -/

/-- A similarity scorer for concrete scenarios: 100 on equal strings, 0
otherwise.  (Every rapidfuzz scorer scores 100 on identical strings and
stays within 0–100; concrete claims only need that much.) -/
def exactScorer (a b : String) : Nat := if a = b then 100 else 0

/-- A matcher configuration for concrete scenarios: threshold 80, strategy
TOKEN_SET_RATIO (the default), `exact_match_only` off. -/
def sampleConfig : MatchConfig :=
  { match_threshold := 80
    match_strategy_str := "TOKEN_SET_RATIO"
    scorer := exactScorer
    exact_match_only := false }

/-- A composite key for concrete scenarios. -/
def sampleKey : MapKey := ⟨1, "TGT", "DB.S.T", "DEV", "TABLE"⟩

/-- A stored record carrying a user override (`user_override = 1`,
`status = MAPPED_USER_OVERRIDE`), as the override guard expects to find. -/
def overriddenRecordSample : MapRecord :=
  { matched_ml_column_name := some "OLD_COL"
    match_percentage := some 95
    match_strategy := some "TOKEN_SET_RATIO"
    mapping_status := "MAPPED_USER_OVERRIDE"
    ml_source_ddl_hash_at_mapping := some "hash1"
    last_mapped_on := "2024-01-01"
    notes := some "manually pinned"
    user_override := true
    is_active := true }

/-- A stored record left by a successful automatic exact match, with the
machine-generated rationale note. -/
def exactRecordSample : MapRecord :=
  { matched_ml_column_name := some "CUSIP"
    match_percentage := some 100
    match_strategy := some "TOKEN_SET_RATIO"
    mapping_status := "MAPPED_EXACT"
    ml_source_ddl_hash_at_mapping := some "hash1"
    last_mapped_on := "2024-01-01"
    notes := some "Exact match found for cusip to CUSIP."
    user_override := false
    is_active := true }

/-- C1.  The claim says the override guard re-affirms
`MAPPED_USER_OVERRIDE`, refreshes only `last_mapped_on` and the DDL hash,
and leaves the `user_override` flag itself unchanged, so the pinned match
survives arbitrarily many runs.  In the code the guard passes
`current_mapping_data` — which always carries `user_override = 0` and
an empty `notes` — to the upsert, so the first run silently clears the
sticky flag (contradicting the comment in the source, "Only update audit fields",
and spec invariant I2), and the very next run re-runs matching and
overwrites the pinned `matched_column`, score and strategy, even though the
DDL hash never changed. -/
theorem c1_override_guard_resets_user_override :
    (decideColumn sampleConfig (some overriddenRecordSample) "hash1" "t1"
        "new_col" ["NEW_COL"]).path = DecisionPath.override
    ∧ insert_or_update_confluence_ml_column_map [(sampleKey, overriddenRecordSample)]
        sampleKey
        (decideColumn sampleConfig (some overriddenRecordSample) "hash1" "t1"
          "new_col" ["NEW_COL"]).update
      = some [(sampleKey,
          applyUpdate overriddenRecordSample
            (decideColumn sampleConfig (some overriddenRecordSample) "hash1" "t1"
              "new_col" ["NEW_COL"]).update)]
    ∧ (applyUpdate overriddenRecordSample
        (decideColumn sampleConfig (some overriddenRecordSample) "hash1" "t1"
          "new_col" ["NEW_COL"]).update).user_override = false
    ∧ (applyUpdate overriddenRecordSample
        (decideColumn sampleConfig (some overriddenRecordSample) "hash1" "t1"
          "new_col" ["NEW_COL"]).update).matched_ml_column_name = some "OLD_COL"
    ∧ (decideColumn sampleConfig
        (some (applyUpdate overriddenRecordSample
          (decideColumn sampleConfig (some overriddenRecordSample) "hash1" "t1"
            "new_col" ["NEW_COL"]).update))
        "hash1" "t2" "new_col" ["NEW_COL"]).path = DecisionPath.fuzzy
    ∧ (applyUpdate
        (applyUpdate overriddenRecordSample
          (decideColumn sampleConfig (some overriddenRecordSample) "hash1" "t1"
            "new_col" ["NEW_COL"]).update)
        (decideColumn sampleConfig
          (some (applyUpdate overriddenRecordSample
            (decideColumn sampleConfig (some overriddenRecordSample) "hash1" "t1"
              "new_col" ["NEW_COL"]).update))
          "hash1" "t2" "new_col" ["NEW_COL"]).update).matched_ml_column_name
      = some "NEW_COL" := by
  decide

/-- C2.  The claim says that when the hash-gate fires (unchanged DDL hash,
stored status MAPPED_EXACT/MAPPED_FUZZY, no user edit) the second run
refreshes the audit timestamp only, leaving `matched_column`, score,
strategy, status, notes and `user_override` unchanged — byte-identical
state.  The gate does fire and does preserve the match fields, but its
write passes `current_mapping_data`, whose empty `notes` blanks the stored
rationale note (contradicting the comment in the source, "Update audit
fields only"), so the record of the second run differs from the first even when
the timestamp is unchanged. -/
theorem c2_hash_gate_blanks_notes :
    (decideColumn sampleConfig (some exactRecordSample) "hash1" "2024-01-01"
        "cusip" ["CUSIP"]).path = DecisionPath.hashGate
    ∧ (applyUpdate exactRecordSample
        (decideColumn sampleConfig (some exactRecordSample) "hash1" "2024-01-01"
          "cusip" ["CUSIP"]).update).matched_ml_column_name
      = exactRecordSample.matched_ml_column_name
    ∧ (applyUpdate exactRecordSample
        (decideColumn sampleConfig (some exactRecordSample) "hash1" "2024-01-01"
          "cusip" ["CUSIP"]).update).match_percentage
      = exactRecordSample.match_percentage
    ∧ (applyUpdate exactRecordSample
        (decideColumn sampleConfig (some exactRecordSample) "hash1" "2024-01-01"
          "cusip" ["CUSIP"]).update).match_strategy
      = exactRecordSample.match_strategy
    ∧ (applyUpdate exactRecordSample
        (decideColumn sampleConfig (some exactRecordSample) "hash1" "2024-01-01"
          "cusip" ["CUSIP"]).update).mapping_status
      = exactRecordSample.mapping_status
    ∧ (applyUpdate exactRecordSample
        (decideColumn sampleConfig (some exactRecordSample) "hash1" "2024-01-01"
          "cusip" ["CUSIP"]).update).user_override
      = exactRecordSample.user_override
    ∧ (applyUpdate exactRecordSample
        (decideColumn sampleConfig (some exactRecordSample) "hash1" "2024-01-01"
          "cusip" ["CUSIP"]).update).last_mapped_on
      = exactRecordSample.last_mapped_on
    ∧ (applyUpdate exactRecordSample
        (decideColumn sampleConfig (some exactRecordSample) "hash1" "2024-01-01"
          "cusip" ["CUSIP"]).update).notes = some ""
    ∧ applyUpdate exactRecordSample
        (decideColumn sampleConfig (some exactRecordSample) "hash1" "2024-01-01"
          "cusip" ["CUSIP"]).update
      ≠ exactRecordSample := by
  decide

/-- C9 counterexample.  The claim says every strategy of the enum —
including the weighted/quick variants — is accepted by configuration
loading.  But `load_column_mapper_config` validates against only the four
base ratio names, so a config selecting WRATIO (which the mapper's own
dispatch supports) is rejected with a ValueError at load time; likewise
QRATIO. -/
theorem c9_wratio_rejected_by_config_loading :
    load_column_mapper_config
        { match_threshold := some 80, match_strategy := some "WRATIO" }
      = Except.error "Invalid match_strategy: WRATIO."
    ∧ dispatch_match_strategy "WRATIO" = some StrategyTag.wratio
    ∧ load_column_mapper_config
        { match_threshold := some 80, match_strategy := some "QRATIO" }
      = Except.error "Invalid match_strategy: QRATIO."
    ∧ dispatch_match_strategy "QRATIO" = some StrategyTag.qratio := by
  refine ⟨rfl, rfl, rfl, rfl⟩

/-- C9 (amended).  The effective `match_threshold` is clamped into 0–100;
each of the four base strategies (plain, partial, token-sort, token-set
ratio) is accepted by configuration loading and dispatched to the
corresponding scorer; the weighted and quick variants are present in the
mapper's dispatch table but are rejected as invalid by configuration
loading, so they cannot be configured; and a missing/non-numeric threshold
or an unrecognized strategy is fatal at startup — the run returns before
any page is processed and the Mapping Store is untouched. -/
theorem c9_config_validation_amended :
    (∀ raw cfgL, load_column_mapper_config raw = .ok cfgL →
      0 ≤ cfgL.match_threshold ∧ cfgL.match_threshold ≤ 100)
    ∧ (∀ (t : Int) (e : Bool), ∀ s ∈ valid_strategy_names,
        load_column_mapper_config (RawMapperConfig.mk (some t) (some s) e)
          = .ok (MapperConfigLoaded.mk (max 0 (min 100 t)) s e))
    ∧ (dispatch_match_strategy "RATIO" = some StrategyTag.ratio
        ∧ dispatch_match_strategy "PARTIAL_RATIO" = some StrategyTag.partRatio
        ∧ dispatch_match_strategy "TOKEN_SORT_RATIO" = some StrategyTag.tokenSortRatio
        ∧ dispatch_match_strategy "TOKEN_SET_RATIO" = some StrategyTag.tokenSetRatio
        ∧ dispatch_match_strategy "WRATIO" = some StrategyTag.wratio
        ∧ dispatch_match_strategy "QRATIO" = some StrategyTag.qratio)
    ∧ (∀ (t : Int) (e : Bool) (s : String), pyUpper s ∉ valid_strategy_names →
        load_column_mapper_config (RawMapperConfig.mk (some t) (some s) e)
          = .error ("Invalid match_strategy: " ++ s ++ "."))
    ∧ (∀ re scorer_of inp msg, load_column_mapper_config inp.raw_config = .error msg →
        map_confluence_columns_to_ml_ddl re scorer_of inp
          = initialRunState inp.initial_store)
    ∧ (∀ re scorer_of inp cfgL, load_column_mapper_config inp.raw_config = .ok cfgL →
        dispatch_match_strategy (pyUpper cfgL.match_strategy) = none →
        map_confluence_columns_to_ml_ddl re scorer_of inp
          = initialRunState inp.initial_store) := by
  refine ⟨?_, ?_, ⟨rfl, rfl, rfl, rfl, rfl, rfl⟩, ?_, ?_, ?_⟩
  · intro raw cfgL h
    unfold load_column_mapper_config at h
    rcases hr : raw.match_threshold with _ | t
    · rw [hr] at h; cases h
    · rw [hr] at h
      rcases hs : raw.match_strategy with _ | s
      · rw [hs] at h; cases h
      · rw [hs] at h
        dsimp only at h
        by_cases hmem : pyUpper s ∈ valid_strategy_names
        · rw [if_pos hmem] at h
          cases h
          constructor
          · exact le_max_left 0 _
          · exact max_le (by norm_num) (min_le_left 100 t)
        · rw [if_neg hmem] at h; cases h
  · intro t e s hs
    fin_cases hs <;>
      · simp only [load_column_mapper_config]
        rw [if_pos (by decide)]
  · intro t e s hmem
    simp only [load_column_mapper_config]
    rw [if_neg hmem]
  · intro re scorer_of inp msg h
    unfold map_confluence_columns_to_ml_ddl
    rw [h]
  · intro re scorer_of inp cfgL hload hdisp
    unfold map_confluence_columns_to_ml_ddl
    rw [hload]
    simp only [hdisp]

/-- C9 witness: the amended theorem applied to a config whose threshold 250
clamps to 100. -/
theorem c9_config_validation_amended_witness :
    0 ≤ (MapperConfigLoaded.mk 100 "RATIO" false).match_threshold
    ∧ (MapperConfigLoaded.mk 100 "RATIO" false).match_threshold ≤ 100 := by
  have h := c9_config_validation_amended.1
    (RawMapperConfig.mk (some 250) (some "RATIO") false)
    (MapperConfigLoaded.mk 100 "RATIO" false) (by rfl)
  exact h

/-- With `exact_match_only` on, the fuzzy step never classifies
MAPPED_FUZZY (assuming the scorer stays within the 0–100 range rapidfuzz
guarantees). -/
theorem fuzzyStep_exact_only_not_fuzzy (cfg : MatchConfig) (base : MapUpdate)
    (src : String) (cands : List String)
    (hexact : cfg.exact_match_only = true)
    (hb : ∀ a b, cfg.scorer a b ≤ 100) :
    (fuzzyStep cfg base src cands).update.mapping_status ≠ some "MAPPED_FUZZY" := by
  rcases hres : extractOne cfg.scorer (pyUpper src) cands cfg.match_threshold with _ | ⟨mc, s⟩
  · simp [fuzzyStep, hres]
  · obtain ⟨hmem, hsc, _⟩ := extractOne_sound cfg.scorer (pyUpper src) cands
      cfg.match_threshold (mc, s) hres
    dsimp only at hsc
    have hs100 : s ≤ 100 := hsc ▸ hb _ _
    rcases lt_or_eq_of_le hs100 with hlt | heq
    · simp [fuzzyStep, hres, hexact, hlt]
    · subst heq
      simp [fuzzyStep, hres]

/-- C3.  On a column where the fuzzy-match step runs, the classification is
exactly: no candidate at or above the threshold → UNMAPPED_LOW_SCORE (a
candidate scoring threshold − 1 is below the cutoff, one scoring exactly
the threshold is accepted); accepted best score 100 → MAPPED_EXACT;
accepted best score < 100 with `exact_match_only` → UNMAPPED_NOT_EXACT with
the matched name and score still recorded; otherwise MAPPED_FUZZY — and
with `exact_match_only` on, no branch of the decision procedure ever writes
status MAPPED_FUZZY.  The scorer hypothesis is the rapidfuzz 0–100 range. -/
theorem c3_fuzzy_match_classification (cfg : MatchConfig)
    (nowTs ddl_hash src : String) (cands : List String)
    (hb : ∀ a b, cfg.scorer a b ≤ 100) :
    ((∀ c ∈ cands, cfg.scorer (pyUpper src) c < cfg.match_threshold) →
      (fuzzyStep cfg (current_mapping_data nowTs ddl_hash) src cands).update.mapping_status
        = some "UNMAPPED_LOW_SCORE")
    ∧ (∀ c ∈ cands, cfg.match_threshold ≤ cfg.scorer (pyUpper src) c →
        (extractOne cfg.scorer (pyUpper src) cands cfg.match_threshold).isSome)
    ∧ (∀ mc s,
        extractOne cfg.scorer (pyUpper src) cands cfg.match_threshold = some (mc, s) →
        cfg.match_threshold ≤ s
        ∧ (s = 100 →
            (fuzzyStep cfg (current_mapping_data nowTs ddl_hash) src cands).update.mapping_status
              = some "MAPPED_EXACT")
        ∧ (s < 100 → cfg.exact_match_only = true →
            (fuzzyStep cfg (current_mapping_data nowTs ddl_hash) src cands).update.mapping_status
              = some "UNMAPPED_NOT_EXACT"
            ∧ (fuzzyStep cfg (current_mapping_data nowTs ddl_hash) src cands).update.matched_ml_column_name
              = some mc
            ∧ (fuzzyStep cfg (current_mapping_data nowTs ddl_hash) src cands).update.match_percentage
              = some s)
        ∧ (s < 100 → cfg.exact_match_only = false →
            (fuzzyStep cfg (current_mapping_data nowTs ddl_hash) src cands).update.mapping_status
              = some "MAPPED_FUZZY"))
    ∧ (∀ existing, cfg.exact_match_only = true →
        (decideColumn cfg existing ddl_hash nowTs src cands).update.mapping_status
          ≠ some "MAPPED_FUZZY") := by
  refine ⟨?_, ?_, ?_, ?_⟩
  · intro hall
    have h := extractOne_none_of_all_lt cfg.scorer (pyUpper src) cands
      cfg.match_threshold hall
    simp [fuzzyStep, h]
  · intro c hc hs
    exact extractOne_isSome_of_mem cfg.scorer (pyUpper src) cands
      cfg.match_threshold c hc hs
  · intro mc s hres
    obtain ⟨hmem, hsc, hcut⟩ := extractOne_sound cfg.scorer (pyUpper src) cands
      cfg.match_threshold (mc, s) hres
    refine ⟨hcut, ?_, ?_, ?_⟩
    · intro h100
      subst h100
      simp [fuzzyStep, hres]
    · intro hlt hexact
      refine ⟨?_, ?_, ?_⟩ <;> simp [fuzzyStep, hres, hexact, hlt]
    · intro hlt hexact
      simp [fuzzyStep, hres, hexact, Nat.ne_of_lt hlt]
  · intro existing hexact
    match existing with
    | none =>
        exact fuzzyStep_exact_only_not_fuzzy cfg _ src cands hexact hb
    | some ex =>
        by_cases hov : ex.user_override
        · simp [decideColumn, hov, current_mapping_data]
        · by_cases hgate : ex.ml_source_ddl_hash_at_mapping = some ddl_hash ∧
            (ex.mapping_status = "MAPPED_EXACT" ∨ ex.mapping_status = "MAPPED_FUZZY")
          · simp [decideColumn, hov, hgate, current_mapping_data]
          · simpa [decideColumn, hov, hgate] using
              fuzzyStep_exact_only_not_fuzzy cfg _ src cands hexact hb

/-- C3 witness: with the threshold-80 sample configuration, a documented
name scoring 0 against the only candidate is classified
UNMAPPED_LOW_SCORE. -/
theorem c3_fuzzy_match_classification_witness :
    (fuzzyStep sampleConfig (current_mapping_data "t0" "h0") "zzz" ["AAA"]).update.mapping_status
      = some "UNMAPPED_LOW_SCORE" := by
  have hb : ∀ a b, sampleConfig.scorer a b ≤ 100 := by
    intro a b
    show exactScorer a b ≤ 100
    unfold exactScorer
    split <;> norm_num
  exact (c3_fuzzy_match_classification sampleConfig "t0" "h0" "zzz" ["AAA"] hb).1
    (by decide)

/-- C8.  The query and every candidate are upper-cased before scoring, so a
documented name equal to a (canonically upper-case) physical column name up
to letter case always yields MAPPED_EXACT with score 100 when matching
runs, for any scorer that scores 100 on identical strings and stays within
0–100 (all rapidfuzz strategies do), provided the clamped threshold is at
most 100. -/
theorem c8_case_insensitive_exact_match (cfg : MatchConfig)
    (nowTs ddl_hash src : String) (cands : List String)
    (hself : ∀ s, cfg.scorer s s = 100)
    (hb : ∀ a b, cfg.scorer a b ≤ 100)
    (hthr : cfg.match_threshold ≤ 100)
    (hmem : ∃ phys ∈ cands, pyUpper phys = phys ∧ pyUpper src = phys) :
    (fuzzyStep cfg (current_mapping_data nowTs ddl_hash) src cands).update.mapping_status
      = some "MAPPED_EXACT"
    ∧ (fuzzyStep cfg (current_mapping_data nowTs ddl_hash) src cands).update.match_percentage
      = some 100 := by
  obtain ⟨phys, hp, _, hq⟩ := hmem
  have hscore : cfg.scorer (pyUpper src) phys = 100 := by rw [hq]; exact hself phys
  have hcut : cfg.match_threshold ≤ cfg.scorer (pyUpper src) phys := by
    rw [hscore]; exact hthr
  have hsome := extractOne_isSome_of_mem cfg.scorer (pyUpper src) cands
    cfg.match_threshold phys hp hcut
  obtain ⟨⟨mc, s⟩, hres⟩ := Option.isSome_iff_exists.mp hsome
  have hmax := extractOne_is_max cfg.scorer (pyUpper src) cands
    cfg.match_threshold phys hp hcut (mc, s) hres
  obtain ⟨_, hsc, _⟩ := extractOne_sound cfg.scorer (pyUpper src) cands
    cfg.match_threshold (mc, s) hres
  dsimp only at hsc
  have hs100 : s = 100 := le_antisymm (hsc ▸ hb _ _) (by
    have := hmax
    rw [hscore] at this
    exact this)
  subst hs100
  constructor <;> simp [fuzzyStep, hres]

/-- C8 witness: documented name "cusip" against physical column "CUSIP"
with the sample configuration. -/
theorem c8_case_insensitive_exact_match_witness :
    (fuzzyStep sampleConfig (current_mapping_data "t0" "h0") "cusip" ["CUSIP"]).update.mapping_status
      = some "MAPPED_EXACT"
    ∧ (fuzzyStep sampleConfig (current_mapping_data "t0" "h0") "cusip" ["CUSIP"]).update.match_percentage
      = some 100 := by
  have hself : ∀ s, sampleConfig.scorer s s = 100 := by
    intro s
    show exactScorer s s = 100
    simp [exactScorer]
  have hb : ∀ a b, sampleConfig.scorer a b ≤ 100 := by
    intro a b
    show exactScorer a b ≤ 100
    unfold exactScorer
    split <;> norm_num
  exact c8_case_insensitive_exact_match sampleConfig "t0" "h0" "cusip" ["CUSIP"]
    hself hb (by decide) ⟨"CUSIP", by decide, by decide, by decide⟩

/-- C10.  The upsert maintains at most one record per five-part composite
key: when a record with the key exists it updates that record in place
(every per-key row count is unchanged, so no second record appears, and
other keys' records are untouched); when none exists it appends exactly one
record.  And an update modifies only the columns present in the supplied
dict — every omitted column keeps its stored value (the frame conjuncts
list each column the orphan-deactivation call omits). -/
theorem c10_upsert_unique_key_and_frame (store : Store) (k : MapKey) (u : MapUpdate)
    (huniq : ∀ k', countKey store k' ≤ 1) :
    (∀ r, storeLookup store k = some r →
      insert_or_update_confluence_ml_column_map store k u
          = some (updateStore store k u)
        ∧ storeLookup (updateStore store k u) k = some (applyUpdate r u)
        ∧ (∀ k', countKey (updateStore store k u) k' = countKey store k')
        ∧ (∀ k', countKey (updateStore store k u) k' ≤ 1)
        ∧ (∀ k', k' ≠ k →
            storeLookup (updateStore store k u) k' = storeLookup store k'))
    ∧ (storeLookup store k = none →
        ∀ s', insert_or_update_confluence_ml_column_map store k u = some s' →
          ∃ r, insertRow u = some r ∧ s' = store ++ [(k, r)]
            ∧ countKey s' k = 1
            ∧ (∀ k', countKey s' k' ≤ 1)
            ∧ (∀ k', k' ≠ k → storeLookup s' k' = storeLookup store k'))
    ∧ (∀ r, u.matched_ml_column_name = none →
        (applyUpdate r u).matched_ml_column_name = r.matched_ml_column_name)
    ∧ (∀ r, u.match_percentage = none →
        (applyUpdate r u).match_percentage = r.match_percentage)
    ∧ (∀ r, u.match_strategy = none →
        (applyUpdate r u).match_strategy = r.match_strategy)
    ∧ (∀ r, u.mapping_status = none →
        (applyUpdate r u).mapping_status = r.mapping_status)
    ∧ (∀ r, u.notes = none → (applyUpdate r u).notes = r.notes)
    ∧ (∀ r, u.user_override = none →
        (applyUpdate r u).user_override = r.user_override)
    ∧ (∀ r, u.is_active = none → (applyUpdate r u).is_active = r.is_active) := by
  refine ⟨?_, ?_, ?_, ?_, ?_, ?_, ?_, ?_, ?_⟩
  · intro r hr
    refine ⟨?_, ?_, ?_, ?_, ?_⟩
    · unfold insert_or_update_confluence_ml_column_map
      rw [hr]
    · rw [storeLookup_updateStore_self, hr]
      rfl
    · intro k'
      exact countKey_updateStore store k k' u
    · intro k'
      rw [countKey_updateStore store k k' u]
      exact huniq k'
    · intro k' hk'
      exact storeLookup_updateStore_other store k k' u hk'
  · intro hnone s' hs'
    unfold insert_or_update_confluence_ml_column_map at hs'
    rw [hnone] at hs'
    rcases hins : insertRow u with _ | r
    · rw [hins] at hs'; cases hs'
    · rw [hins] at hs'
      refine ⟨r, rfl, ?_, ?_, ?_, ?_⟩
      · exact (Option.some.inj hs').symm
      · obtain rfl := Option.some.inj hs'
        rw [countKey_append_single store k k r,
          countKey_eq_zero_of_lookup_none store k hnone]
        simp
      · intro k'
        obtain rfl := Option.some.inj hs'
        rw [countKey_append_single store k k' r]
        by_cases hk : k = k'
        · subst hk
          rw [countKey_eq_zero_of_lookup_none store k hnone]
          simp
        · simpa [hk] using huniq k'
      · intro k' hk'
        obtain rfl := Option.some.inj hs'
        exact storeLookup_append_single_other store k k' r hk'
  · intro r h; simp [applyUpdate, h]
  · intro r h; simp [applyUpdate, h]
  · intro r h; simp [applyUpdate, h]
  · intro r h; simp [applyUpdate, h]
  · intro r h; simp [applyUpdate, h]
  · intro r h; simp [applyUpdate, h]
  · intro r h; simp [applyUpdate, h]

/-- C10 witness: the theorem applied to a one-row store and the audit-only
dict the orphan sweep passes for an override-masked orphan — the match
columns it omits keep their stored values. -/
theorem c10_upsert_unique_key_and_frame_witness :
    insert_or_update_confluence_ml_column_map [(sampleKey, exactRecordSample)]
        sampleKey (MapUpdate.mk none none none none none (some "t9") none none (some true))
      = some (updateStore [(sampleKey, exactRecordSample)] sampleKey
          (MapUpdate.mk none none none none none (some "t9") none none (some true)))
    ∧ storeLookup (updateStore [(sampleKey, exactRecordSample)] sampleKey
          (MapUpdate.mk none none none none none (some "t9") none none (some true)))
        sampleKey
      = some (applyUpdate exactRecordSample
          (MapUpdate.mk none none none none none (some "t9") none none (some true))) := by
  have h := (c10_upsert_unique_key_and_frame [(sampleKey, exactRecordSample)] sampleKey
    (MapUpdate.mk none none none none none (some "t9") none none (some true))
    (by intro k'; by_cases hk : sampleKey = k' <;> simp [countKey, hk])).1
    exactRecordSample (by simp [storeLookup])
  exact ⟨h.1, h.2.1⟩

/-! ### Orphan sweep lemmas -/

theorem countKey_append (l1 l2 : Store) (k : MapKey) :
    countKey (l1 ++ l2) k = countKey l1 k + countKey l2 k := by
  induction l1 with
  | nil => simp [countKey]
  | cons p rest ih =>
      simp only [List.cons_append, List.append_eq, countKey, ih]
      omega

theorem countKey_filter_le (store : Store) (pred : MapKey × MapRecord → Bool)
    (k : MapKey) :
    countKey (store.filter pred) k ≤ countKey store k := by
  induction store with
  | nil => simp [countKey]
  | cons p rest ih =>
      by_cases hp : pred p
      · simp only [List.filter_cons, if_pos hp, countKey]
        exact Nat.add_le_add_left ih _
      · simp only [List.filter_cons, if_neg hp]
        exact le_trans ih (Nat.le_add_left _ _)

theorem countKey_zero_not_mem (l : Store) (k : MapKey) (row : MapKey × MapRecord) :
    countKey l k = 0 → row ∈ l → row.1 ≠ k := by
  induction l with
  | nil => intro _ hrow; cases hrow
  | cons p rest ih =>
      intro h hrow
      simp only [countKey] at h
      have hrest : countKey rest k = 0 := by
        by_cases hp : p.1 = k
        · rw [if_pos hp] at h; omega
        · rw [if_neg hp] at h; omega
      rcases List.mem_cons.mp hrow with rfl | hmem
      · intro hk
        rw [if_pos hk] at h
        omega
      · exact ih hrest hmem

theorem storeLookup_some_mem (store : Store) (k : MapKey) (r : MapRecord) :
    storeLookup store k = some r → (k, r) ∈ store := by
  induction store with
  | nil => intro h; cases h
  | cons p rest ih =>
      obtain ⟨pk, pr⟩ := p
      intro h
      simp only [storeLookup] at h
      by_cases hp : pk = k
      · rw [if_pos hp] at h
        obtain rfl := Option.some.inj h
        subst hp
        exact List.mem_cons_self _ _
      · rw [if_neg hp] at h
        exact List.mem_cons_of_mem _ (ih h)

theorem upsert_lookup_other (store : Store) (k0 : MapKey) (u : MapUpdate) (s' : Store)
    (h : insert_or_update_confluence_ml_column_map store k0 u = some s')
    (k : MapKey) (hne : k ≠ k0) :
    storeLookup s' k = storeLookup store k := by
  unfold insert_or_update_confluence_ml_column_map at h
  rcases hl : storeLookup store k0 with _ | r
  · rw [hl] at h
    rcases hins : insertRow u with _ | r0
    · rw [hins] at h
      cases h
    · rw [hins] at h
      simp only [Option.map_some'] at h
      obtain rfl := Option.some.inj h
      exact storeLookup_append_single_other store k0 k r0 hne
  · rw [hl] at h
    obtain rfl := Option.some.inj h
    exact storeLookup_updateStore_other store k0 k u hne

theorem tryWrite_lookup_other (re : RunEnv) (st : RunState) (k0 : MapKey)
    (u : MapUpdate) (k : MapKey) (hne : k ≠ k0) :
    storeLookup (exceptState (tryWrite re st k0 u)).store k = storeLookup st.store k := by
  unfold tryWrite
  by_cases hf : re.failing_write k0
  · rw [if_pos hf]
    rfl
  · rw [if_neg hf]
    rcases hup : insert_or_update_confluence_ml_column_map st.store k0 u with _ | s
    · rfl
    · simp only [exceptState]
      exact upsert_lookup_other st.store k0 u s hup k hne


theorem tryWrite_infos (re : RunEnv) (st : RunState) (k : MapKey) (u : MapUpdate) :
    (exceptState (tryWrite re st k u)).override_masked_infos
      = st.override_masked_infos := by
  unfold tryWrite
  by_cases hf : re.failing_write k
  · rw [if_pos hf]
    rfl
  · rw [if_neg hf]
    rcases insert_or_update_confluence_ml_column_map st.store k u with _ | s <;> rfl

theorem tryWrite_ok (re : RunEnv) (st : RunState) (k : MapKey) (u : MapUpdate)
    (st2 : RunState) (h : tryWrite re st k u = .ok st2) :
    insert_or_update_confluence_ml_column_map st.store k u = some st2.store
    ∧ st2.override_masked_infos = st.override_masked_infos := by
  unfold tryWrite at h
  by_cases hf : re.failing_write k
  · rw [if_pos hf] at h
    cases h
  · rw [if_neg hf] at h
    rcases hup : insert_or_update_confluence_ml_column_map st.store k u with _ | s
    · rw [hup] at h
      cases h
    · rw [hup] at h
      obtain rfl := Except.ok.inj h
      exact ⟨rfl, rfl⟩

theorem orphanRowAction_lookup_other (re : RunEnv) (page_id : Nat)
    (fqdn env obj : String) (names : List String) (st : RunState)
    (row : MapKey × MapRecord) (k : MapKey)
    (hrow : row.1.confluence_target_field_name ∈ names ∨
      mkOrphanKey page_id fqdn env obj row.1.confluence_target_field_name ≠ k) :
    storeLookup (exceptState
        (orphanRowAction re page_id fqdn env obj names (.ok st) row)).store k
      = storeLookup st.store k := by
  by_cases hmem : row.1.confluence_target_field_name ∈ names
  · simp only [orphanRowAction, if_pos hmem]
    rfl
  · have hne : k ≠ mkOrphanKey page_id fqdn env obj row.1.confluence_target_field_name := by
      rcases hrow with h | h
      · exact absurd h hmem
      · exact fun hh => h hh.symm
    by_cases hov : row.2.user_override = true
    · simp only [orphanRowAction, if_neg hmem, if_pos hov]
      exact tryWrite_lookup_other re _ _ _ k hne
    · simp only [orphanRowAction, if_neg hmem, if_neg hov]
      exact tryWrite_lookup_other re _ _ _ k hne

theorem orphanRowAction_infos_mono (re : RunEnv) (page_id : Nat)
    (fqdn env obj : String) (names : List String) (st : RunState)
    (row : MapKey × MapRecord) (x : Nat × String)
    (hx : x ∈ st.override_masked_infos) :
    x ∈ (exceptState
        (orphanRowAction re page_id fqdn env obj names (.ok st) row)).override_masked_infos := by
  by_cases hmem : row.1.confluence_target_field_name ∈ names
  · simpa only [orphanRowAction, if_pos hmem] using hx
  · by_cases hov : row.2.user_override = true
    · simp only [orphanRowAction, if_neg hmem, if_pos hov]
      rw [tryWrite_infos]
      exact List.mem_append_left _ hx
    · simp only [orphanRowAction, if_neg hmem, if_neg hov]
      rw [tryWrite_infos]
      exact hx

theorem orphanRowFold_error (re : RunEnv) (page_id : Nat) (fqdn env obj : String)
    (names : List String) (rows : List (MapKey × MapRecord)) (s : RunState) :
    rows.foldl (orphanRowAction re page_id fqdn env obj names) (.error s) = .error s := by
  induction rows with
  | nil => rfl
  | cons row rest ih =>
      rw [List.foldl_cons]
      exact ih

theorem orphanRowFold_preserves (re : RunEnv) (page_id : Nat) (fqdn env obj : String)
    (names : List String) (rows : List (MapKey × MapRecord)) (k : MapKey)
    (a : Except RunState RunState) :
    (∀ row ∈ rows, row.1.confluence_target_field_name ∈ names ∨
      mkOrphanKey page_id fqdn env obj row.1.confluence_target_field_name ≠ k) →
    storeLookup (exceptState
        (rows.foldl (orphanRowAction re page_id fqdn env obj names) a)).store k
      = storeLookup (exceptState a).store k := by
  induction rows generalizing a with
  | nil => intro _; rfl
  | cons row rest ih =>
      intro hk
      rw [List.foldl_cons]
      rw [ih (orphanRowAction re page_id fqdn env obj names a row)
        (fun r hr => hk r (List.mem_cons_of_mem _ hr))]
      cases a with
      | error s => rfl
      | ok st =>
          exact orphanRowAction_lookup_other re page_id fqdn env obj names st row k
            (hk row (List.mem_cons_self _ _))

theorem orphanRowFold_infos_mono (re : RunEnv) (page_id : Nat) (fqdn env obj : String)
    (names : List String) (rows : List (MapKey × MapRecord))
    (a : Except RunState RunState) (x : Nat × String)
    (hx : x ∈ (exceptState a).override_masked_infos) :
    x ∈ (exceptState
        (rows.foldl (orphanRowAction re page_id fqdn env obj names) a)).override_masked_infos := by
  induction rows generalizing a with
  | nil => exact hx
  | cons row rest ih =>
      rw [List.foldl_cons]
      apply ih
      cases a with
      | error s => exact hx
      | ok st => exact orphanRowAction_infos_mono re page_id fqdn env obj names st row x hx

theorem orphanRowFold_ok_split (re : RunEnv) (page_id : Nat) (fqdn env obj : String)
    (names : List String) (s1 : List (MapKey × MapRecord)) (row : MapKey × MapRecord)
    (s2 : List (MapKey × MapRecord)) (st st' : RunState)
    (hok : (s1 ++ row :: s2).foldl (orphanRowAction re page_id fqdn env obj names)
        (.ok st) = .ok st') :
    ∃ st1 st2,
      s1.foldl (orphanRowAction re page_id fqdn env obj names) (.ok st) = .ok st1
      ∧ orphanRowAction re page_id fqdn env obj names (.ok st1) row = .ok st2
      ∧ s2.foldl (orphanRowAction re page_id fqdn env obj names) (.ok st2) = .ok st' := by
  rw [List.foldl_append, List.foldl_cons] at hok
  rcases ha1 : s1.foldl (orphanRowAction re page_id fqdn env obj names) (.ok st) with s | st1
  · rw [ha1] at hok
    rw [show orphanRowAction re page_id fqdn env obj names (.error s) row
        = .error s from rfl] at hok
    rw [orphanRowFold_error] at hok
    cases hok
  · rw [ha1] at hok
    rcases ha2 : orphanRowAction re page_id fqdn env obj names (.ok st1) row with s | st2
    · rw [ha2] at hok
      rw [orphanRowFold_error] at hok
      cases hok
    · rw [ha2] at hok
      exact ⟨st1, st2, rfl, ha2, hok⟩

theorem mem_snapshot (store : Store) (page_id : Nat) (fqdn env obj : String)
    (row : MapKey × MapRecord)
    (h : row ∈ orphanSweepSnapshot store page_id fqdn env obj) :
    row ∈ store
    ∧ row.1 = mkOrphanKey page_id fqdn env obj row.1.confluence_target_field_name
    ∧ row.2.is_active = true := by
  obtain ⟨hmem, hpred⟩ := List.mem_filter.mp h
  simp only [decide_eq_true_eq] at hpred
  obtain ⟨h1, h2, h3, h4, h5⟩ := hpred
  refine ⟨hmem, ?_, h5⟩
  obtain ⟨⟨pid, tgt, f, e, o⟩, rec⟩ := row
  simp only at h1 h2 h3 h4 ⊢
  subst h1 h2 h3 h4
  rfl

/-- C7.  Orphan detection compares against the complete documented set of
the page — `pageTargetNames` collects the target name of every `table_1` column
before (and regardless of) the `add_source_to_target` check — so a record
whose target matches any documented column, marked for inclusion or not, is
never touched by the sweep: its stored state is bit-for-bit preserved, even
when the sweep ends in an exception partway through. -/
theorem c7_orphan_detection_uses_full_documented_set (re : RunEnv)
    (pg : PageInput) (page_id : Nat) (fqdn env obj : String) (st : RunState)
    (c : ConfColumn) (k : MapKey)
    (hc : c ∈ pg.columns)
    (hk : k.confluence_target_field_name = c.target_field_name) :
    storeLookup (exceptState
        (orphanSweep re page_id fqdn env obj (pageTargetNames pg) st)).store k
      = storeLookup st.store k := by
  unfold orphanSweep
  apply orphanRowFold_preserves
  intro row hrow
  by_cases hmem : row.1.confluence_target_field_name ∈ pageTargetNames pg
  · exact Or.inl hmem
  · refine Or.inr ?_
    intro hkey
    apply hmem
    have htgt : row.1.confluence_target_field_name = k.confluence_target_field_name := by
      rw [← hkey]
      rfl
    rw [htgt, hk]
    exact List.mem_map.mpr ⟨c, hc, rfl⟩

/-- A run environment for concrete orphan-sweep scenarios: no resolver
entries, no cached DDL, no injected write fault. -/
def idleRunEnv : RunEnv :=
  { fqdn_resolver := fun _ => none
    ml_ddl_cache := fun _ _ _ => none
    failing_write := fun _ => false
    nowTs := "t9" }

/-- A `table_1` column still documented but no longer marked for
inclusion. -/
def unincludedColumnSample : ConfColumn :=
  { target_field_name := "KEEP"
    source_field_name := "keep"
    add_source_to_target := some "no"
    source_table := some "SRC" }

/-- A page whose only documented column is not marked for inclusion. -/
def c7PageSample : PageInput :=
  { page_id := 1, columns := [unincludedColumnSample] }

/-- The stored mapping for that column. -/
def c7KeySample : MapKey := ⟨1, "KEEP", "DB.S.T", "DEV", "TABLE"⟩

def c7StateSample : RunState := initialRunState [(c7KeySample, exactRecordSample)]

/-- C7 witness: a documented column with `add_source_to_target = "no"` is
not treated as an orphan — its record is untouched by the sweep. -/
theorem c7_orphan_detection_uses_full_documented_set_witness :
    storeLookup (exceptState
        (orphanSweep idleRunEnv 1 "DB.S.T" "DEV" "TABLE"
          (pageTargetNames c7PageSample) c7StateSample)).store c7KeySample
      = storeLookup c7StateSample.store c7KeySample :=
  c7_orphan_detection_uses_full_documented_set idleRunEnv c7PageSample 1
    "DB.S.T" "DEV" "TABLE" c7StateSample unincludedColumnSample c7KeySample
    (by decide) rfl

/-- C5.  An active record with `user_override` set whose target is absent
from the documented set is not deactivated by the sweep: when the sweep
completes, the record keeps its matched column, score, strategy, status,
notes and override flag, stays `is_active`, has only its audit timestamp
refreshed, and an informational override-masking-an-orphan line is
emitted. -/
theorem c5_override_masked_orphan_preserved (re : RunEnv) (page_id : Nat)
    (fqdn env obj : String) (names : List String) (st st' : RunState)
    (k : MapKey) (r : MapRecord)
    (huniq : ∀ k2, countKey st.store k2 ≤ 1)
    (hr : storeLookup st.store k = some r)
    (hact : r.is_active = true)
    (hov : r.user_override = true)
    (habs : k.confluence_target_field_name ∉ names)
    (hpage : k.confluence_page_id = page_id)
    (hfqdn : k.ml_source_fqdn = fqdn)
    (henv : k.ml_env = env)
    (hobj : k.ml_object_type = obj)
    (hok : orphanSweep re page_id fqdn env obj names st = .ok st') :
    storeLookup st'.store k
      = some { r with last_mapped_on := re.nowTs, is_active := true }
    ∧ (page_id, k.confluence_target_field_name) ∈ st'.override_masked_infos := by
  have hkmk : mkOrphanKey page_id fqdn env obj k.confluence_target_field_name = k := by
    obtain ⟨a, b, c2, d, e⟩ := k
    dsimp only at hpage hfqdn henv hobj ⊢
    subst hpage hfqdn henv hobj
    rfl
  have hmemstore : (k, r) ∈ st.store := storeLookup_some_mem _ _ _ hr
  have hmemsnap : (k, r) ∈ orphanSweepSnapshot st.store page_id fqdn env obj := by
    apply List.mem_filter.mpr
    refine ⟨hmemstore, ?_⟩
    simp only [decide_eq_true_eq]
    exact ⟨hpage, hfqdn, henv, hobj, hact⟩
  obtain ⟨s1, s2, hsplit⟩ := List.append_of_mem hmemsnap
  have hcount : countKey (orphanSweepSnapshot st.store page_id fqdn env obj) k ≤ 1 :=
    le_trans (countKey_filter_le _ _ _) (huniq k)
  rw [hsplit, countKey_append] at hcount
  have hmid : countKey ((k, r) :: s2) k = 1 + countKey s2 k := by
    simp [countKey]
  rw [hmid] at hcount
  have hs1zero : countKey s1 k = 0 := by omega
  have hs2zero : countKey s2 k = 0 := by omega
  unfold orphanSweep at hok
  rw [hsplit] at hok
  obtain ⟨st1, st2, hfold1, haction, hfold2⟩ :=
    orphanRowFold_ok_split re page_id fqdn env obj names s1 (k, r) s2 st st' hok
  have hside1 : ∀ row ∈ s1, row.1.confluence_target_field_name ∈ names ∨
      mkOrphanKey page_id fqdn env obj row.1.confluence_target_field_name ≠ k := by
    intro row hrow
    right
    have hne : row.1 ≠ k := countKey_zero_not_mem s1 k row hs1zero hrow
    have hrowsnap : row ∈ orphanSweepSnapshot st.store page_id fqdn env obj := by
      rw [hsplit]
      exact List.mem_append.mpr (Or.inl hrow)
    have hkey := (mem_snapshot st.store page_id fqdn env obj row hrowsnap).2.1
    rw [← hkey]
    exact hne
  have hside2 : ∀ row ∈ s2, row.1.confluence_target_field_name ∈ names ∨
      mkOrphanKey page_id fqdn env obj row.1.confluence_target_field_name ≠ k := by
    intro row hrow
    right
    have hne : row.1 ≠ k := countKey_zero_not_mem s2 k row hs2zero hrow
    have hrowsnap : row ∈ orphanSweepSnapshot st.store page_id fqdn env obj := by
      rw [hsplit]
      exact List.mem_append.mpr (Or.inr (List.mem_cons_of_mem _ hrow))
    have hkey := (mem_snapshot st.store page_id fqdn env obj row hrowsnap).2.1
    rw [← hkey]
    exact hne
  have hlook1 : storeLookup st1.store k = some r := by
    have hpres := orphanRowFold_preserves re page_id fqdn env obj names s1 k
      (.ok st) hside1
    rw [hfold1] at hpres
    simp only [exceptState] at hpres
    rw [hpres]
    exact hr
  have hstep : orphanRowAction re page_id fqdn env obj names (.ok st1) (k, r)
      = tryWrite re ({ st1 with override_masked_infos :=
            st1.override_masked_infos ++ [(page_id, k.confluence_target_field_name)] })
          (mkOrphanKey page_id fqdn env obj k.confluence_target_field_name)
          { last_mapped_on := some re.nowTs, is_active := some true } := by
    simp only [orphanRowAction]
    rw [if_neg habs, if_pos hov]
  rw [hstep] at haction
  obtain ⟨hup, hinfos⟩ := tryWrite_ok re _ _ _ st2 haction
  dsimp only at hup hinfos
  rw [hkmk] at hup
  have hupd : st2.store = updateStore st1.store k
      { last_mapped_on := some re.nowTs, is_active := some true } := by
    unfold insert_or_update_confluence_ml_column_map at hup
    rw [hlook1] at hup
    exact (Option.some.inj hup).symm
  have hlook2 : storeLookup st2.store k
      = some { r with last_mapped_on := re.nowTs, is_active := true } := by
    rw [hupd, storeLookup_updateStore_self, hlook1]
    rfl
  have hfinal := orphanRowFold_preserves re page_id fqdn env obj names s2 k
    (.ok st2) hside2
  rw [hfold2] at hfinal
  simp only [exceptState] at hfinal
  constructor
  · rw [hfinal]
    exact hlook2
  · have hx : (page_id, k.confluence_target_field_name) ∈ st2.override_masked_infos := by
      rw [hinfos]
      exact List.mem_append_right _ (List.mem_singleton.mpr rfl)
    have hmono := orphanRowFold_infos_mono re page_id fqdn env obj names s2
      (.ok st2) (page_id, k.confluence_target_field_name) hx
    rw [hfold2] at hmono
    simpa only [exceptState] using hmono

/-- The stored override mapping whose documented column has been removed
entirely. -/
def c5KeySample : MapKey := ⟨1, "GONE", "DB.S.T", "DEV", "TABLE"⟩

def c5RecordSample : MapRecord :=
  { matched_ml_column_name := some "GONE_COL"
    match_percentage := some 91
    match_strategy := some "TOKEN_SET_RATIO"
    mapping_status := "MAPPED_USER_OVERRIDE"
    ml_source_ddl_hash_at_mapping := some "h1"
    last_mapped_on := "t0"
    notes := some "pinned by hand"
    user_override := true
    is_active := true }

def c5StateSample : RunState := initialRunState [(c5KeySample, c5RecordSample)]

/-- C5 witness: the theorem applied to a one-record store whose overridden
target "GONE" is absent from the documented set `["KEEP"]`. -/
theorem c5_override_masked_orphan_preserved_witness :
    storeLookup (exceptState (orphanSweep idleRunEnv 1 "DB.S.T" "DEV" "TABLE"
        ["KEEP"] c5StateSample)).store c5KeySample
      = some { c5RecordSample with last_mapped_on := "t9", is_active := true }
    ∧ (1, "GONE") ∈ (exceptState (orphanSweep idleRunEnv 1 "DB.S.T" "DEV" "TABLE"
        ["KEEP"] c5StateSample)).override_masked_infos := by
  have hok : orphanSweep idleRunEnv 1 "DB.S.T" "DEV" "TABLE" ["KEEP"] c5StateSample
      = .ok (exceptState (orphanSweep idleRunEnv 1 "DB.S.T" "DEV" "TABLE"
          ["KEEP"] c5StateSample)) := by rfl
  have huniq : ∀ k2, countKey c5StateSample.store k2 ≤ 1 := by
    intro k2
    by_cases h : c5KeySample = k2 <;>
      simp [c5StateSample, initialRunState, countKey, h]
  exact c5_override_masked_orphan_preserved idleRunEnv 1 "DB.S.T" "DEV" "TABLE"
    ["KEEP"] c5StateSample _ c5KeySample c5RecordSample huniq (by decide)
    (by decide) (by decide) (by decide) rfl rfl rfl rfl hok

/-! ### Concrete run scenarios -/

/-- A resolver map with one logical source, resolvable only in DEV. -/
def demoResolver : String → Option (String → Option EnvFqdn) :=
  fun src =>
    if src = "SRC1" then
      some (fun env =>
        if env = "DEV" then some { fqdn := "DB.S.T1", object_type := "TABLE" }
        else none)
    else none

/-- A DDL cache with one entry, for the DEV object. -/
def demoDdlCache : String → String → String → Option DdlInfo :=
  fun fqdn env obj =>
    if fqdn = "DB.S.T1" ∧ env = "DEV" ∧ obj = "TABLE" then
      some { current_ddl_hash := "h1"
             current_extracted_ddl := "CREATE TABLE DB.S.T1 (COLA VARCHAR(6), COLB VARCHAR(6));"
             extracted_column_names := ["COLA", "COLB"] }
    else none

/-- Every strategy tag scored by the equality scorer (the concrete runs only
need exact hits). -/
def demoScorerOf : StrategyTag → String → String → Nat := fun _ => exactScorer

def c4RunEnv : RunEnv :=
  { fqdn_resolver := demoResolver
    ml_ddl_cache := demoDdlCache
    failing_write := fun _ => false
    nowTs := "t1" }

/-- A page documenting exactly one column, COLA, marked for inclusion. -/
def c4Page : PageInput :=
  { page_id := 1
    columns := [{ target_field_name := "COLA", source_field_name := "cola",
                  add_source_to_target := some "yes", source_table := some "SRC1" }] }

/-- A previously recorded, still-active DEV mapping whose target GONE has
disappeared from the documented set — exactly what the sweep for the
(page 1, DEV) scope must deactivate. -/
def c4OrphanKey : MapKey := ⟨1, "GONE", "DB.S.T1", "DEV", "TABLE"⟩

def c4OrphanRecord : MapRecord :=
  { matched_ml_column_name := some "GONE_COL"
    match_percentage := some 100
    match_strategy := some "TOKEN_SET_RATIO"
    mapping_status := "MAPPED_EXACT"
    ml_source_ddl_hash_at_mapping := some "h1"
    last_mapped_on := "t0"
    notes := some "old automatic match"
    user_override := false
    is_active := true }

def c4Input : RunInput :=
  { raw_config := RawMapperConfig.mk (some 80) (some "TOKEN_SET_RATIO") false
    pages := [c4Page]
    initial_store := [(c4OrphanKey, c4OrphanRecord)] }

/-- C4.  The claim says the orphan sweep runs once per processed
page/environment pair, over that pair's scope, so the stale GONE mapping in
the processed (page 1, DEV) scope is deactivated.  In the source the sweep
sits outside the environment loop: it runs once per page, reading the
leaked loop variables — `ml_env_upper` is the final entry of
`CHECK_ENVIRONMENTS` ("PRU"), not the processed environment — so it queries
the (page 1, fqdn, "PRU") scope, finds nothing, and the DEV orphan survives
the run entirely untouched (still `is_active`, status unchanged), while the
run reports no error.  The DEV environment itself was genuinely processed:
the documented column COLA got its record written. -/
theorem c4_orphan_sweep_runs_once_per_page :
    (map_confluence_columns_to_ml_ddl c4RunEnv demoScorerOf c4Input).ml_env_upper
      = some "PRU"
    ∧ storeLookup (map_confluence_columns_to_ml_ddl c4RunEnv demoScorerOf c4Input).store
        c4OrphanKey = some c4OrphanRecord
    ∧ (storeLookup (map_confluence_columns_to_ml_ddl c4RunEnv demoScorerOf c4Input).store
        ⟨1, "COLA", "DB.S.T1", "DEV", "TABLE"⟩).isSome = true
    ∧ (map_confluence_columns_to_ml_ddl c4RunEnv demoScorerOf c4Input).page_errors
      = [] := by
  decide

/-- Exception propagation past the remaining documented columns of an
environment. -/
theorem mapColumnsFold_error (cfg : MatchConfig) (re : RunEnv) (page_id : Nat)
    (env : String) (fq : EnvFqdn) (ddl : DdlInfo) (s : RunState)
    (cols : List ConfColumn) :
    mapColumnsFold cfg re page_id env fq ddl (.error s) cols = .error s := by
  unfold mapColumnsFold
  induction cols with
  | nil => rfl
  | cons c rest ih =>
      rw [List.foldl_cons]
      exact ih

/-- The run environment of the C6 scenario: the Mapping Store write for any
key whose target is COLA raises. -/
def c6RunEnv : RunEnv :=
  { fqdn_resolver := demoResolver
    ml_ddl_cache := demoDdlCache
    failing_write := fun k => k.confluence_target_field_name == "COLA"
    nowTs := "t1" }

/-- A page with two documented columns, COLA then COLB, both marked for
inclusion. -/
def c6Page : PageInput :=
  { page_id := 1
    columns := [{ target_field_name := "COLA", source_field_name := "cola",
                  add_source_to_target := some "yes", source_table := some "SRC1" },
                { target_field_name := "COLB", source_field_name := "colb",
                  add_source_to_target := some "yes", source_table := some "SRC1" }] }

def c6Input : RunInput :=
  { raw_config := RawMapperConfig.mk (some 80) (some "TOKEN_SET_RATIO") false
    pages := [c6Page]
    initial_store := [] }

/-- C6 counterexample.  The claim says a Mapping Store write failure for one
documented column is caught per unit and the remaining columns of the same
page are still processed.  In this run the write for COLA raises, and
afterwards no record exists for COLB — the remaining unit of the same page
and environment was never processed (the page-level `except` recorded the
failure instead). -/
theorem c6_unit_failure_aborts_page_counterexample :
    storeLookup (map_confluence_columns_to_ml_ddl c6RunEnv demoScorerOf c6Input).store
        ⟨1, "COLB", "DB.S.T1", "DEV", "TABLE"⟩ = none
    ∧ (map_confluence_columns_to_ml_ddl c6RunEnv demoScorerOf c6Input).page_errors
      = [1] := by
  decide

/-- C6 (amended).  Failure isolation is per page, not per unit: an
exception raised while processing any unit of a page propagates past the
remaining columns of that environment, the remaining environments, and the
orphan sweep of the page, but it is caught at the page boundary — the page is
recorded as failed, writes committed before the failure persist, and the
remaining pages of the run are still processed from that state. -/
theorem c6_page_level_failure_isolation :
    (∀ cfg re st pg s, processPageBody cfg re st pg = .error s →
      ∀ rest : List PageInput,
        (pg :: rest).foldl (processPage cfg re) st
          = rest.foldl (processPage cfg re)
              { s with page_errors := s.page_errors ++ [pg.page_id] })
    ∧ (∀ cfg re page_id env fq ddl s cols,
        mapColumnsFold cfg re page_id env fq ddl (.error s) cols = .error s)
    ∧ (∀ cfg re page_id cols resolved s env,
        processEnv cfg re page_id cols resolved (.error s) env = .error s)
    ∧ (∀ (re : RunEnv) (page_id : Nat) (fqdn env obj : String)
        (names : List String) (rows : List (MapKey × MapRecord)) (s : RunState),
        rows.foldl (orphanRowAction re page_id fqdn env obj names) (.error s)
          = .error s) := by
  refine ⟨?_, ?_, ?_, ?_⟩
  · intro cfg re st pg s h rest
    have hpage : processPage cfg re st pg
        = { s with page_errors := s.page_errors ++ [pg.page_id] } := by
      unfold processPage
      rw [h]
    rw [List.foldl_cons, hpage]
  · intro cfg re page_id env fq ddl s cols
    exact mapColumnsFold_error cfg re page_id env fq ddl s cols
  · intro cfg re page_id cols resolved s env
    rfl
  · intro re page_id fqdn env obj names rows s
    exact orphanRowFold_error re page_id fqdn env obj names rows s

/-- The state in which the processing of the C6 page raises (after the failed
COLA write). -/
def c6ErrState : RunState :=
  exceptState (processPageBody sampleConfig c6RunEnv (initialRunState []) c6Page)

/-- C6 witness: the amended theorem applied to the concrete failing page. -/
theorem c6_page_level_failure_isolation_witness :
    [c6Page].foldl (processPage sampleConfig c6RunEnv) (initialRunState [])
      = { c6ErrState with page_errors := c6ErrState.page_errors ++ [c6Page.page_id] } := by
  have h : processPageBody sampleConfig c6RunEnv (initialRunState []) c6Page
      = .error c6ErrState := by rfl
  exact c6_page_level_failure_isolation.1 sampleConfig c6RunEnv
    (initialRunState []) c6Page c6ErrState h []
